import Mathlib

/-!
Verification development for the portfolio optimizer of this repository
(`src/portfolio/optimizer.py`, class `FreePortfolioOptimizer`).

Prices, returns, weights and covariance entries are modelled as real numbers.
Two inputs that the Python code obtains from outside its numerical core are
made explicit parameters of the embedded functions:

* `data`  — the table of adjusted close prices fetched by `yf.download`
  (one row per date, one column per ticker);
* `draws` — the stream of raw vectors produced by `np.random.random(len(tickers))`
  inside the sampling loop (one entry per trial, so the code's
  `num_portfolios = 10000` corresponds to `draws.length = 10000`).

Python dictionaries returned by the two public methods become structures, and
the `return {}` escape hatches (empty downloaded frame, empty ticker list, and
the catch-all `except`) become the `empty` constructor of a small output type.
-/

noncomputable section

/-- Inner product of two vectors, as in `np.sum(a * b)` and `np.dot(a, b)`. -/
def dot (a b : List ℝ) : ℝ := (List.zipWith (fun x y => x * y) a b).sum

/-- Matrix-vector product `np.dot(C, w)`: one inner product per row. -/
def matVec (C : List (List ℝ)) (w : List ℝ) : List ℝ := C.map (fun row => dot row w)

/-- Quadratic form `np.dot(w.T, np.dot(C, w))` exactly as the code nests it. -/
def quadForm (C : List (List ℝ)) (w : List ℝ) : ℝ := dot w (matVec C w)

/-- Scalar multiple of a matrix, as in `cov_matrix * 252`. -/
def scaleM (c : ℝ) (C : List (List ℝ)) : List (List ℝ) :=
  C.map (fun row => row.map (fun x => c * x))

/-- Diagonal of a (square) matrix, `np.diag(cov_matrix)`. -/
def diag (C : List (List ℝ)) : List ℝ :=
  (List.range C.length).map (fun i => (C.getD i []).getD i 0)

/-- Arithmetic mean `np.mean` (sum over length). -/
def listMean (l : List ℝ) : ℝ := l.sum / l.length

/-- Guarded Sharpe ratio used at lines 38, 55 and 80-81 of the source:
`(ret - r_f) / vol` when `vol > 0`, else `0`. -/
def sharpeOf (ret rf vol : ℝ) : ℝ := if vol > 0 then (ret - rf) / vol else 0

/-- One sampled portfolio: a weight vector together with its annualized
expected return, volatility and Sharpe ratio (the spec's `FrontierPoint`,
one column of the code's `results` array plus `weights_record[i]`). -/
structure FrontierPoint where
  weights : List ℝ
  expected_return : ℝ
  volatility : ℝ
  sharpe_ratio : ℝ

instance : Inhabited FrontierPoint := ⟨⟨[], 0, 0, 0⟩⟩

/-- Normalization `weights /= np.sum(weights)` of one raw draw (line 47). -/
def normalizeWeights (raw : List ℝ) : List ℝ := raw.map (fun x => x / raw.sum)

/-- One sampling trial (lines 50-55): annualized return
`np.sum(mean_returns * weights) * 252`, volatility
`sqrt(w.T (cov*252) w)` and the guarded Sharpe ratio. -/
def evalPoint (mean : List ℝ) (C : List (List ℝ)) (rf : ℝ) (w : List ℝ) : FrontierPoint :=
  { weights := w
    expected_return := dot mean w * 252
    volatility := Real.sqrt (quadForm (scaleM 252 C) w)
    sharpe_ratio := sharpeOf (dot mean w * 252) rf (Real.sqrt (quadForm (scaleM 252 C) w)) }

/-- The sampling loop of lines 45-55 over an explicit stream of raw draws:
each trial normalizes its draw and evaluates the resulting weight vector. -/
def samplePoints (mean : List ℝ) (C : List (List ℝ)) (rf : ℝ)
    (draws : List (List ℝ)) : List FrontierPoint :=
  draws.map (fun raw => evalPoint mean C rf (normalizeWeights raw))

/-- Index of the first occurrence of the maximum, `np.argmax` (0 on an empty list). -/
def argmaxIdx : List ℝ → Nat
  | [] => 0
  | [_] => 0
  | x :: y :: xs =>
    if x < (y :: xs).getD (argmaxIdx (y :: xs)) 0 then argmaxIdx (y :: xs) + 1 else 0

/-- Index of the first occurrence of the minimum, `np.argmin` (0 on an empty list). -/
def argminIdx : List ℝ → Nat
  | [] => 0
  | [_] => 0
  | x :: y :: xs =>
    if (y :: xs).getD (argminIdx (y :: xs)) 0 < x then argminIdx (y :: xs) + 1 else 0

/-- The max-Sharpe distinguished point (lines 58-61): the sampled point at
`np.argmax(results[2])`. -/
def maxSharpePoint (mean : List ℝ) (C : List (List ℝ)) (rf : ℝ)
    (draws : List (List ℝ)) : FrontierPoint :=
  let pts := samplePoints mean C rf draws
  pts.getD (argmaxIdx (pts.map (fun p => p.sharpe_ratio))) default

/-- The min-volatility distinguished point (lines 64-67): the sampled point at
`np.argmin(results[1])`. -/
def minVolPoint (mean : List ℝ) (C : List (List ℝ)) (rf : ℝ)
    (draws : List (List ℝ)) : FrontierPoint :=
  let pts := samplePoints mean C rf draws
  pts.getD (argminIdx (pts.map (fun p => p.volatility))) default

/-- Transcription of `_calculate_diversification_ratio` (lines 119-124):
`average_vol / weighted_vol` when `weighted_vol > 0`, else `1`, where
`weighted_vol = sqrt(w.T C w)` and `average_vol = sqrt(mean(diag(C)))`. -/
def _calculate_diversification_ratio (cov_matrix : List (List ℝ)) (weights : List ℝ) : ℝ :=
  let weighted_vol := Real.sqrt (quadForm cov_matrix weights)
  let average_vol := Real.sqrt (listMean (diag cov_matrix))
  if weighted_vol > 0 then average_vol / weighted_vol else 1

/-- The diversification ratio as section 4.4 of the spec words it, written from
the spec for comparison with the transcription above: average individual
volatility (square root of the unweighted mean of the covariance diagonal)
divided by the portfolio volatility `sqrt(w.T C w)`, defined as `1` when the
portfolio volatility is `0`. -/
def diversificationRatioSpec (C : List (List ℝ)) (w : List ℝ) : ℝ :=
  if Real.sqrt (quadForm C w) = 0 then 1
  else Real.sqrt ((diag C).sum / (diag C).length) / Real.sqrt (quadForm C w)

/-- Per-period fractional returns `data.pct_change().dropna()` (line 26):
row `t` is `price[t+1] / price[t] - 1`, so the first (undefined) row is gone. -/
def pctChange (data : List (List ℝ)) : List (List ℝ) :=
  List.zipWith (fun prev cur => List.zipWith (fun a b => b / a - 1) prev cur) data data.tail

/-- Column means of the return table, `returns.mean()` (line 29). -/
def colMean (rows : List (List ℝ)) (n : Nat) : List ℝ :=
  (List.range n).map (fun j => listMean (rows.map (fun r => r.getD j 0)))

/-- Sample covariance matrix `returns.cov()` (line 30), with the pandas
default `N - 1` divisor. -/
def sampleCov (rows : List (List ℝ)) (n : Nat) : List (List ℝ) :=
  (List.range n).map (fun i =>
    (List.range n).map (fun j =>
      (rows.map (fun r =>
        (r.getD i 0 - listMean (rows.map (fun s => s.getD i 0))) *
        (r.getD j 0 - listMean (rows.map (fun s => s.getD j 0))))).sum /
      ((rows.length : ℝ) - 1)))

/-- Per-ticker entry of `stock_metrics` (lines 74-82). -/
structure StockMetric where
  weight_max_sharpe : ℝ
  weight_min_vol : ℝ
  annual_return : ℝ
  annual_volatility : ℝ
  sharpe_ratio : ℝ

/-- The dictionary returned on the success path of `optimize_portfolio`
(lines 84-113). -/
structure OptResult where
  tickers : List String
  current_weights : List ℝ
  current_expected_return : ℝ
  current_volatility : ℝ
  current_sharpe_ratio : ℝ
  max_sharpe : FrontierPoint
  min_volatility : FrontierPoint
  stock_metrics : List (String × StockMetric)
  diversification_ratio : ℝ
  frontier_returns : List ℝ
  frontier_volatilities : List ℝ
  frontier_sharpe_ratios : List ℝ

/-- Outcome of `optimize_portfolio`: either the structured result or the
empty dict `{}` that the code returns on an empty downloaded frame (line 23)
and from the catch-all `except` (lines 115-117). -/
inductive OptOutput where
  | empty
  | result (r : OptResult)

/-- Body of `optimize_portfolio` after the `data.empty` guard (lines 26-113). -/
def optimizeResult (tickers : List String) (initial_weights : Option (List ℝ))
    (data : List (List ℝ)) (draws : List (List ℝ)) (rf : ℝ) : OptResult :=
  let n := tickers.length
  let returns := pctChange data
  let mean_returns := colMean returns n
  let cov_matrix := sampleCov returns n
  let w0 := initial_weights.getD (List.replicate n (1 / (n : ℝ)))
  let portfolio_return := dot mean_returns w0 * 252
  let portfolio_volatility := Real.sqrt (quadForm (scaleM 252 cov_matrix) w0)
  let pts := samplePoints mean_returns cov_matrix rf draws
  let maxP := maxSharpePoint mean_returns cov_matrix rf draws
  let minP := minVolPoint mean_returns cov_matrix rf draws
  { tickers := tickers
    current_weights := w0
    current_expected_return := portfolio_return
    current_volatility := portfolio_volatility
    current_sharpe_ratio := sharpeOf portfolio_return rf portfolio_volatility
    max_sharpe := maxP
    min_volatility := minP
    stock_metrics := tickers.enum.map (fun p =>
      (p.2, { weight_max_sharpe := maxP.weights.getD p.1 0
              weight_min_vol := minP.weights.getD p.1 0
              annual_return := mean_returns.getD p.1 0 * 252
              annual_volatility := Real.sqrt ((diag cov_matrix).getD p.1 0 * 252)
              sharpe_ratio := sharpeOf (mean_returns.getD p.1 0 * 252) rf
                (Real.sqrt ((diag cov_matrix).getD p.1 0 * 252)) }))
    diversification_ratio := _calculate_diversification_ratio cov_matrix maxP.weights
    frontier_returns := pts.map (fun p => p.expected_return)
    frontier_volatilities := pts.map (fun p => p.volatility)
    frontier_sharpe_ratios := pts.map (fun p => p.sharpe_ratio) }

/-- Model of `optimize_portfolio` (lines 13-117): the empty dict when the
downloaded price table is empty, otherwise the structured result.  `rf` is
`self.risk_free_rate` (default `0.04`). -/
def optimize_portfolio (tickers : List String) (initial_weights : Option (List ℝ))
    (data : List (List ℝ)) (draws : List (List ℝ)) (rf : ℝ) : OptOutput :=
  if data.isEmpty then OptOutput.empty
  else OptOutput.result (optimizeResult tickers initial_weights data draws rf)

/-- The dictionary returned on the success path of
`calculate_portfolio_metrics` (lines 170-183). -/
structure PortfolioMetrics where
  total_return : ℝ
  annual_return : ℝ
  annual_volatility : ℝ
  sharpe_ratio : ℝ
  sortino_ratio : ℝ
  calmar_ratio : ℝ
  max_drawdown : ℝ
  win_rate : ℝ
  avg_win : ℝ
  avg_loss : ℝ
  profit_factor : ℝ

/-- Outcome of `calculate_portfolio_metrics`: the metrics dictionary, or the
empty dict returned for an empty ticker list (line 133), an empty downloaded
frame (line 142) or from the catch-all `except` (lines 185-187). -/
inductive MetricsOutput where
  | empty
  | result (m : PortfolioMetrics)

/-- Realized portfolio return series `returns.dot(weights)` (line 148). -/
def portfolioReturns (returns : List (List ℝ)) (weights : List ℝ) : List ℝ :=
  returns.map (fun r => dot r weights)

/-- Running products `(1 + r).cumprod()` (line 157), same length as the input. -/
def cumprod (l : List ℝ) : List ℝ := (l.scanl (fun a b => a * b) 1).tail

/-- Running maxima `cumulative.expanding(min_periods=1).max()` (line 158). -/
def runningMax : List ℝ → List ℝ
  | [] => []
  | x :: xs => x :: (runningMax xs).map (fun y => max x y)

/-- Minimum of a series, `drawdown.min()` (line 160); `0` on an empty series. -/
def listMin : List ℝ → ℝ
  | [] => 0
  | x :: xs => xs.foldl min x

/-- Sample standard deviation `portfolio_returns.std()` (line 153), pandas
default `N - 1` divisor. -/
def sampleStd (l : List ℝ) : ℝ :=
  Real.sqrt ((l.map (fun x => (x - listMean l) ^ 2)).sum / ((l.length : ℝ) - 1))

/-- The negative-period returns `portfolio_returns[portfolio_returns < 0]`. -/
def negReturns (r : List ℝ) : List ℝ := r.filter (fun x => decide (x < 0))

/-- The positive-period returns `portfolio_returns[portfolio_returns > 0]`. -/
def posReturns (r : List ℝ) : List ℝ := r.filter (fun x => decide (0 < x))

/-- Downside deviation (line 164): `sqrt(mean(downside**2)) * sqrt(252)` when
negative-period returns exist, else `0`. -/
def downsideDeviation (r : List ℝ) : ℝ :=
  if 0 < (negReturns r).length then
    Real.sqrt (listMean ((negReturns r).map (fun x => x ^ 2))) * Real.sqrt 252
  else 0

/-- Metric block of `calculate_portfolio_metrics` (lines 144-183), computed
from the raw weight list exactly as supplied. -/
def computeMetrics (weights : List ℝ) (data : List (List ℝ)) (rf : ℝ) : PortfolioMetrics :=
  let r := portfolioReturns (pctChange data) weights
  let total_return := (r.map (fun x => 1 + x)).prod - 1
  let annual_return := total_return * 252 / (r.length : ℝ)
  let annual_volatility := sampleStd r * Real.sqrt 252
  let cumulative := cumprod (r.map (fun x => 1 + x))
  let peak := runningMax cumulative
  let drawdown := List.zipWith (fun c p => (c - p) / p) cumulative peak
  let max_drawdown := listMin drawdown
  let dd := downsideDeviation r
  { total_return := total_return
    annual_return := annual_return
    annual_volatility := annual_volatility
    sharpe_ratio := if annual_volatility > 0 then (annual_return - rf) / annual_volatility else 0
    sortino_ratio := if dd > 0 then (annual_return - rf) / dd else 0
    calmar_ratio := if max_drawdown ≠ 0 then annual_return / |max_drawdown| else 0
    max_drawdown := max_drawdown
    win_rate := if 0 < r.length then ((posReturns r).length : ℝ) / (r.length : ℝ) else 0
    avg_win := if 0 < (posReturns r).length then listMean (posReturns r) else 0
    avg_loss := if 0 < (negReturns r).length then listMean (negReturns r) else 0
    profit_factor :=
      if 0 < (negReturns r).length ∧ (negReturns r).sum ≠ 0 then
        |(posReturns r).sum / (negReturns r).sum|
      else 0 }

/-- Model of `calculate_portfolio_metrics` (lines 126-187): the supplied
ticker-to-weight mapping is split into key and value lists; an empty ticker
list or an empty downloaded frame yields the empty dict, and otherwise the
metrics are computed from the raw weights with no validation. -/
def calculate_portfolio_metrics (portfolio : List (String × ℝ))
    (data : List (List ℝ)) (rf : ℝ) : MetricsOutput :=
  let tickers := portfolio.map (fun q => q.1)
  let weights := portfolio.map (fun q => q.2)
  if tickers.isEmpty then MetricsOutput.empty
  else if data.isEmpty then MetricsOutput.empty
  else MetricsOutput.result (computeMetrics weights data rf)

/-- Modelled from the spec: one step of the seeded pseudo-random generator
behind `np.random.random`.  NumPy's global Mersenne-Twister state is library
code outside this repository; section 4.3 of the spec only requires a
deterministic seeded source ("given a fixed seed, output must be bit-for-bit
reproducible"), so the generator is modelled as a linear-congruential step,
a pure function of the state. -/
def lcgNext (s : Nat) : Nat := (1103515245 * s + 12345) % 2 ^ 31

/-- Modelled from the spec: the generator state after `k + 1` steps from `seed`. -/
def lcgState (seed : Nat) : Nat → Nat
  | 0 => lcgNext seed
  | k + 1 => lcgNext (lcgState seed k)

/-- Modelled from the spec: the `K`-by-`n` table of raw draws in `[0, 1)`
produced from a fixed seed, standing for the successive outputs of
`np.random.random(len(tickers))` over the `K` trials. -/
def drawStream (seed n K : Nat) : List (List ℝ) :=
  (List.range K).map (fun i =>
    (List.range n).map (fun j => (lcgState seed (i * n + j) : ℝ) / 2 ^ 31))

/-- One frontier-sampling run from a seed (the spec's `sample_frontier`):
the full sample set and the two distinguished points. -/
def runFrontierSampler (seed n K : Nat) (mean : List ℝ) (C : List (List ℝ))
    (rf : ℝ) : List FrontierPoint × FrontierPoint × FrontierPoint :=
  (samplePoints mean C rf (drawStream seed n K),
   maxSharpePoint mean C rf (drawStream seed n K),
   minVolPoint mean C rf (drawStream seed n K))

end

theorem argmaxIdx_lt : ∀ l : List ℝ, l ≠ [] → argmaxIdx l < l.length
  | [], h => absurd rfl h
  | [_], _ => by simp [argmaxIdx]
  | x :: y :: xs, _ => by
    have ih := argmaxIdx_lt (y :: xs) (by simp)
    by_cases hc : x < (y :: xs).getD (argmaxIdx (y :: xs)) 0
    · simp only [argmaxIdx, if_pos hc, List.length_cons]
      simp only [List.length_cons] at ih
      omega
    · simp only [argmaxIdx, if_neg hc, List.length_cons]
      omega

theorem argminIdx_lt : ∀ l : List ℝ, l ≠ [] → argminIdx l < l.length
  | [], h => absurd rfl h
  | [_], _ => by simp [argminIdx]
  | x :: y :: xs, _ => by
    have ih := argminIdx_lt (y :: xs) (by simp)
    by_cases hc : (y :: xs).getD (argminIdx (y :: xs)) 0 < x
    · simp only [argminIdx, if_pos hc, List.length_cons]
      simp only [List.length_cons] at ih
      omega
    · simp only [argminIdx, if_neg hc, List.length_cons]
      omega

theorem argmaxIdx_spec : ∀ (l : List ℝ) (i : Nat), i < l.length →
    l.getD i 0 ≤ l.getD (argmaxIdx l) 0
  | [], i, h => by simp at h
  | [x], i, h => by
    have hi : i = 0 := by simpa using Nat.lt_one_iff.mp (by simpa using h)
    subst hi
    simp [argmaxIdx]
  | x :: y :: xs, i, h => by
    by_cases hc : x < (y :: xs).getD (argmaxIdx (y :: xs)) 0
    · rw [show argmaxIdx (x :: y :: xs) = argmaxIdx (y :: xs) + 1 from by
        simp only [argmaxIdx, if_pos hc]]
      cases i with
      | zero => simpa using le_of_lt hc
      | succ k =>
        have hk : k < (y :: xs).length := by simpa using Nat.lt_of_succ_lt_succ h
        simpa using argmaxIdx_spec (y :: xs) k hk
    · rw [show argmaxIdx (x :: y :: xs) = 0 from by simp only [argmaxIdx, if_neg hc]]
      push_neg at hc
      cases i with
      | zero => simp
      | succ k =>
        have hk : k < (y :: xs).length := by simpa using Nat.lt_of_succ_lt_succ h
        have hik := argmaxIdx_spec (y :: xs) k hk
        simp only [List.getD_cons_succ, List.getD_cons_zero]
        exact le_trans hik hc

theorem argminIdx_spec : ∀ (l : List ℝ) (i : Nat), i < l.length →
    l.getD (argminIdx l) 0 ≤ l.getD i 0
  | [], i, h => by simp at h
  | [x], i, h => by
    have hi : i = 0 := by simpa using Nat.lt_one_iff.mp (by simpa using h)
    subst hi
    simp [argminIdx]
  | x :: y :: xs, i, h => by
    by_cases hc : (y :: xs).getD (argminIdx (y :: xs)) 0 < x
    · rw [show argminIdx (x :: y :: xs) = argminIdx (y :: xs) + 1 from by
        simp only [argminIdx, if_pos hc]]
      cases i with
      | zero => simpa using le_of_lt hc
      | succ k =>
        have hk : k < (y :: xs).length := by simpa using Nat.lt_of_succ_lt_succ h
        simpa using argminIdx_spec (y :: xs) k hk
    · rw [show argminIdx (x :: y :: xs) = 0 from by simp only [argminIdx, if_neg hc]]
      push_neg at hc
      cases i with
      | zero => simp
      | succ k =>
        have hk : k < (y :: xs).length := by simpa using Nat.lt_of_succ_lt_succ h
        have hik := argminIdx_spec (y :: xs) k hk
        simp only [List.getD_cons_succ, List.getD_cons_zero]
        exact le_trans hc hik

theorem getD_map_point (f : FrontierPoint → ℝ) (l : List FrontierPoint) (j : Nat)
    (h : j < l.length) : (l.map f).getD j 0 = f (l.getD j default) := by
  have h2 : j < (l.map f).length := by simpa using h
  rw [List.getD_eq_getElem _ _ h2, List.getD_eq_getElem _ _ h, List.getElem_map]

theorem sum_map_div (l : List ℝ) (s : ℝ) : (l.map (fun x => x / s)).sum = l.sum / s := by
  induction l with
  | nil => simp
  | cons x xs ih => simp [ih, add_div]

theorem normalizeWeights_ok (raw : List ℝ) (h0 : ∀ x ∈ raw, 0 ≤ x)
    (hs : 0 < raw.sum) :
    (∀ w ∈ normalizeWeights raw, 0 ≤ w ∧ w ≤ 1) ∧ (normalizeWeights raw).sum = 1 := by
  constructor
  · intro w hw
    obtain ⟨x, hx, rfl⟩ := List.mem_map.mp hw
    constructor
    · exact div_nonneg (h0 x hx) (le_of_lt hs)
    · exact (div_le_one hs).mpr (List.single_le_sum h0 x hx)
  · rw [normalizeWeights, sum_map_div, div_self (ne_of_gt hs)]

theorem le_getD_argmax (pts : List FrontierPoint) (f : FrontierPoint → ℝ) (i : Nat)
    (hi : i < pts.length) :
    f (pts.getD i default) ≤ f (pts.getD (argmaxIdx (pts.map f)) default) := by
  have hiL : i < (pts.map f).length := by simpa using hi
  have hne : pts.map f ≠ [] := by
    intro hnil
    rw [hnil] at hiL
    simp at hiL
  have hlt : argmaxIdx (pts.map f) < pts.length := by
    simpa using argmaxIdx_lt _ hne
  have h1 := argmaxIdx_spec (pts.map f) i hiL
  rwa [getD_map_point f pts i hi, getD_map_point f pts _ hlt] at h1

theorem getD_argmin_le (pts : List FrontierPoint) (f : FrontierPoint → ℝ) (i : Nat)
    (hi : i < pts.length) :
    f (pts.getD (argminIdx (pts.map f)) default) ≤ f (pts.getD i default) := by
  have hiL : i < (pts.map f).length := by simpa using hi
  have hne : pts.map f ≠ [] := by
    intro hnil
    rw [hnil] at hiL
    simp at hiL
  have hlt : argminIdx (pts.map f) < pts.length := by
    simpa using argminIdx_lt _ hne
  have h1 := argminIdx_spec (pts.map f) i hiL
  rwa [getD_map_point f pts i hi, getD_map_point f pts _ hlt] at h1

/-- Claim C1: in every frontier-sampling run the two distinguished points are
the arg-extrema over the full sample set: every sampled point's Sharpe ratio
is at most the max-Sharpe point's, and its volatility is at least the
min-volatility point's. -/
theorem frontier_extrema_are_argextrema (mean : List ℝ) (Cm : List (List ℝ)) (rf : ℝ)
    (draws : List (List ℝ)) (p : FrontierPoint)
    (hp : p ∈ samplePoints mean Cm rf draws) :
    p.sharpe_ratio ≤ (maxSharpePoint mean Cm rf draws).sharpe_ratio ∧
    (minVolPoint mean Cm rf draws).volatility ≤ p.volatility := by
  obtain ⟨i, hi, hip⟩ := List.mem_iff_getElem.mp hp
  have hpi : (samplePoints mean Cm rf draws).getD i default = p := by
    rw [List.getD_eq_getElem _ _ hi, hip]
  constructor
  · have h := le_getD_argmax (samplePoints mean Cm rf draws)
      (fun q => q.sharpe_ratio) i hi
    rw [hpi] at h
    exact h
  · have h := getD_argmin_le (samplePoints mean Cm rf draws)
      (fun q => q.volatility) i hi
    rw [hpi] at h
    exact h

theorem frontier_extrema_are_argextrema_witness :
    evalPoint [0] [[0]] 0 (normalizeWeights [1]) ∈ samplePoints [0] [[0]] 0 [[1]] ∧
    (evalPoint [0] [[0]] 0 (normalizeWeights [1])).sharpe_ratio ≤
      (maxSharpePoint [0] [[0]] 0 [[1]]).sharpe_ratio ∧
    (minVolPoint [0] [[0]] 0 [[1]]).volatility ≤
      (evalPoint [0] [[0]] 0 (normalizeWeights [1])).volatility := by
  have hm : evalPoint [0] [[0]] 0 (normalizeWeights [1]) ∈ samplePoints [0] [[0]] 0 [[1]] := by
    simp [samplePoints]
  exact ⟨hm, frontier_extrema_are_argextrema [0] [[0]] 0 [[1]] _ hm⟩

/-- Claim C2: in every sampling trial the generated weight vector has every
component in the interval from 0 to 1 and the components sum to exactly 1,
given that the trial's raw draws are non-negative with a positive sum (as
`np.random.random` produces outside the measure-zero all-zero event). -/
theorem sampled_weights_normalized (mean : List ℝ) (Cm : List (List ℝ)) (rf : ℝ)
    (draws : List (List ℝ))
    (hdraws : ∀ raw ∈ draws, (∀ x ∈ raw, 0 ≤ x) ∧ 0 < raw.sum)
    (p : FrontierPoint) (hp : p ∈ samplePoints mean Cm rf draws) :
    (∀ w ∈ p.weights, 0 ≤ w ∧ w ≤ 1) ∧ p.weights.sum = 1 := by
  obtain ⟨raw, hraw, rfl⟩ := List.mem_map.mp hp
  have h := hdraws raw hraw
  simpa [evalPoint] using normalizeWeights_ok raw h.1 h.2

theorem sampled_weights_normalized_witness :
    (∀ raw ∈ [[(1 : ℝ), 3]], (∀ x ∈ raw, 0 ≤ x) ∧ 0 < raw.sum) ∧
    evalPoint [0, 0] [[0, 0], [0, 0]] 0 (normalizeWeights [1, 3]) ∈
      samplePoints [0, 0] [[0, 0], [0, 0]] 0 [[1, 3]] ∧
    ((∀ w ∈ (evalPoint [0, 0] [[0, 0], [0, 0]] 0 (normalizeWeights [1, 3])).weights,
        0 ≤ w ∧ w ≤ 1) ∧
      (evalPoint [0, 0] [[0, 0], [0, 0]] 0 (normalizeWeights [1, 3])).weights.sum = 1) := by
  have hd : ∀ raw ∈ [[(1 : ℝ), 3]], (∀ x ∈ raw, 0 ≤ x) ∧ 0 < raw.sum := by
    intro raw hraw
    simp only [List.mem_singleton] at hraw
    subst hraw
    constructor
    · intro x hx
      rcases List.mem_cons.mp hx with h | h
      · rw [h]; norm_num
      · simp only [List.mem_singleton] at h; rw [h]; norm_num
    · simp only [List.sum_cons, List.sum_nil]
      norm_num
  have hm : evalPoint [0, 0] [[0, 0], [0, 0]] 0 (normalizeWeights [1, 3]) ∈
      samplePoints [0, 0] [[0, 0], [0, 0]] 0 [[1, 3]] := by
    simp [samplePoints]
  exact ⟨hd, hm, sampled_weights_normalized [0, 0] [[0, 0], [0, 0]] 0 [[1, 3]] hd _ hm⟩

/-- Claim C4: with a fixed seed and identical inputs (moments, asset count,
trial count, risk-free rate), two frontier-sampling runs produce identical
sample sets and identical distinguished points.  The seeded random source is
modelled from the spec (see `lcgNext`), since NumPy's generator is library
code outside this repository. -/
theorem frontier_sampler_deterministic (s t n m K L : Nat) (mu nu : List ℝ)
    (A B : List (List ℝ)) (rf rg : ℝ) (hs : s = t) (hn : n = m) (hK : K = L)
    (hmu : mu = nu) (hAB : A = B) (hrf : rf = rg) :
    runFrontierSampler s n K mu A rf = runFrontierSampler t m L nu B rg := by
  subst hs
  subst hn
  subst hK
  subst hmu
  subst hAB
  subst hrf
  rfl

theorem frontier_sampler_deterministic_witness :
    runFrontierSampler 7 2 3 [1, 2] [[1, 0], [0, 1]] (1 / 25) =
      runFrontierSampler 7 2 3 [1, 2] [[1, 0], [0, 1]] (1 / 25) :=
  frontier_sampler_deterministic 7 7 2 2 3 3 [1, 2] [1, 2] [[1, 0], [0, 1]]
    [[1, 0], [0, 1]] (1 / 25) (1 / 25) rfl rfl rfl rfl rfl rfl

/-- Claim C6: the code's diversification ratio agrees with the spec's wording:
average individual volatility (the square root of the unweighted mean of the
covariance diagonal) over the portfolio volatility sqrt of the quadratic form,
with the ratio defined as 1 when the portfolio volatility is 0. -/
theorem diversification_ratio_formula (Cm : List (List ℝ)) (w : List ℝ) :
    _calculate_diversification_ratio Cm w = diversificationRatioSpec Cm w := by
  have hcode : _calculate_diversification_ratio Cm w =
      if Real.sqrt (quadForm Cm w) > 0 then
        Real.sqrt (listMean (diag Cm)) / Real.sqrt (quadForm Cm w)
      else 1 := rfl
  rw [hcode]
  unfold diversificationRatioSpec
  have h0 : 0 ≤ Real.sqrt (quadForm Cm w) := Real.sqrt_nonneg _
  rcases eq_or_lt_of_le h0 with h | h
  · rw [if_neg (by rw [← h]; exact lt_irrefl 0), if_pos h.symm]
  · rw [if_pos h, if_neg (ne_of_gt h)]
    rw [listMean]

/-- Claim C7: for a single-asset universe with positive asset variance and the
full weight on that asset, the diversification ratio equals exactly 1. -/
theorem single_asset_diversification_ratio_one (c : ℝ) (hc : 0 < c) :
    _calculate_diversification_ratio [[c]] [1] = 1 := by
  have hq : quadForm [[c]] [1] = c := by
    simp [quadForm, matVec, dot]
  have hd : diag [[c]] = [c] := by
    have h1 : List.range 1 = [0] := rfl
    simp [diag, h1]
  have hm : listMean [c] = c := by
    simp [listMean]
  have hcode : _calculate_diversification_ratio [[c]] [1] =
      if Real.sqrt (quadForm [[c]] [1]) > 0 then
        Real.sqrt (listMean (diag [[c]])) / Real.sqrt (quadForm [[c]] [1])
      else 1 := rfl
  rw [hcode, hq, hd, hm, if_pos (Real.sqrt_pos.mpr hc)]
  exact div_self (ne_of_gt (Real.sqrt_pos.mpr hc))

theorem single_asset_diversification_ratio_one_witness :
    (0 : ℝ) < 1 ∧ _calculate_diversification_ratio [[1]] [1] = 1 :=
  ⟨by norm_num, single_asset_diversification_ratio_one 1 (by norm_num)⟩

theorem sharpeOf_pos (a rf v : ℝ) (hv : 0 < v) : sharpeOf a rf v = (a - rf) / v := if_pos hv

theorem sharpeOf_nonpos (a rf v : ℝ) (hv : ¬ 0 < v) : sharpeOf a rf v = 0 := if_neg hv

/-- Claim C5: for every sampled trial point and for the baseline portfolio,
the Sharpe ratio equals (expected_return - r_f) / volatility when the
volatility is positive, and 0 by convention when it is not; the zero-volatility
case yields a value rather than an exception. -/
theorem sharpe_ratio_convention (mean : List ℝ) (Cm : List (List ℝ)) (rf : ℝ)
    (draws : List (List ℝ)) (p : FrontierPoint)
    (hp : p ∈ samplePoints mean Cm rf draws)
    (tickers : List String) (iw : Option (List ℝ)) (data dr : List (List ℝ)) :
    ((0 < p.volatility → p.sharpe_ratio = (p.expected_return - rf) / p.volatility) ∧
      (¬ 0 < p.volatility → p.sharpe_ratio = 0)) ∧
    ((0 < (optimizeResult tickers iw data dr rf).current_volatility →
        (optimizeResult tickers iw data dr rf).current_sharpe_ratio =
          ((optimizeResult tickers iw data dr rf).current_expected_return - rf) /
            (optimizeResult tickers iw data dr rf).current_volatility) ∧
      (¬ 0 < (optimizeResult tickers iw data dr rf).current_volatility →
        (optimizeResult tickers iw data dr rf).current_sharpe_ratio = 0)) := by
  obtain ⟨raw, hraw, rfl⟩ := List.mem_map.mp hp
  have hkey : (evalPoint mean Cm rf (normalizeWeights raw)).sharpe_ratio =
      sharpeOf (evalPoint mean Cm rf (normalizeWeights raw)).expected_return rf
        (evalPoint mean Cm rf (normalizeWeights raw)).volatility := rfl
  have hbase : (optimizeResult tickers iw data dr rf).current_sharpe_ratio =
      sharpeOf (optimizeResult tickers iw data dr rf).current_expected_return rf
        (optimizeResult tickers iw data dr rf).current_volatility := rfl
  refine ⟨⟨fun hv => ?_, fun hv => ?_⟩, ⟨fun hv => ?_, fun hv => ?_⟩⟩
  · rw [hkey, sharpeOf_pos _ _ _ hv]
  · rw [hkey, sharpeOf_nonpos _ _ _ hv]
  · rw [hbase, sharpeOf_pos _ _ _ hv]
  · rw [hbase, sharpeOf_nonpos _ _ _ hv]

theorem sharpe_ratio_convention_witness :
    evalPoint [0] [[0]] 0 (normalizeWeights [1]) ∈ samplePoints [0] [[0]] 0 [[1]] ∧
    ¬ 0 < (evalPoint [0] [[0]] 0 (normalizeWeights [1])).volatility ∧
    (evalPoint [0] [[0]] 0 (normalizeWeights [1])).sharpe_ratio = 0 := by
  have hm : evalPoint [0] [[0]] 0 (normalizeWeights [1]) ∈ samplePoints [0] [[0]] 0 [[1]] := by
    simp [samplePoints]
  have hv : (evalPoint [0] [[0]] 0 (normalizeWeights [1])).volatility = 0 := by
    have hq : quadForm (scaleM 252 [[0]]) (normalizeWeights [1]) = 0 := by
      simp [quadForm, matVec, dot, scaleM, normalizeWeights]
    show Real.sqrt (quadForm (scaleM 252 [[0]]) (normalizeWeights [1])) = 0
    rw [hq, Real.sqrt_zero]
  have hnv : ¬ 0 < (evalPoint [0] [[0]] 0 (normalizeWeights [1])).volatility := by
    rw [hv]
    exact lt_irrefl 0
  exact ⟨hm, hnv,
    ((sharpe_ratio_convention [0] [[0]] 0 [[1]] _ hm [] none [] []).1).2 hnv⟩

/-- Claim C8: in the backtest metrics, the Sortino denominator is the
annualized root-mean-square of the negative-period portfolio returns alone
(equal, when negative periods exist, to the square root of 252 times the mean
of their squares), and with no negative periods the Sortino ratio is 0 by
convention, with a value returned rather than an exception. -/
theorem sortino_downside_deviation (w : List ℝ) (data : List (List ℝ)) (rf : ℝ) :
    ((computeMetrics w data rf).sortino_ratio =
      if 0 < downsideDeviation (portfolioReturns (pctChange data) w) then
        ((computeMetrics w data rf).annual_return - rf) /
          downsideDeviation (portfolioReturns (pctChange data) w)
      else 0) ∧
    (0 < (negReturns (portfolioReturns (pctChange data) w)).length →
      downsideDeviation (portfolioReturns (pctChange data) w) =
        Real.sqrt (252 * listMean ((negReturns (portfolioReturns (pctChange data) w)).map
          (fun x => x ^ 2)))) ∧
    (negReturns (portfolioReturns (pctChange data) w) = [] →
      (computeMetrics w data rf).sortino_ratio = 0) := by
  refine ⟨rfl, fun hlen => ?_, fun hnil => ?_⟩
  · show (if 0 < (negReturns (portfolioReturns (pctChange data) w)).length then
        Real.sqrt (listMean ((negReturns (portfolioReturns (pctChange data) w)).map
          (fun x => x ^ 2))) * Real.sqrt 252
      else 0) = _
    rw [if_pos hlen, Real.sqrt_mul (by norm_num : (0 : ℝ) ≤ 252)]
    ring
  · have hdd : downsideDeviation (portfolioReturns (pctChange data) w) = 0 := by
      show (if 0 < (negReturns (portfolioReturns (pctChange data) w)).length then
          Real.sqrt (listMean ((negReturns (portfolioReturns (pctChange data) w)).map
            (fun x => x ^ 2))) * Real.sqrt 252
        else 0) = 0
      rw [if_neg]
      rw [hnil]
      simp
    have hfield : (computeMetrics w data rf).sortino_ratio =
        if 0 < downsideDeviation (portfolioReturns (pctChange data) w) then
          ((computeMetrics w data rf).annual_return - rf) /
            downsideDeviation (portfolioReturns (pctChange data) w)
        else 0 := rfl
    rw [hfield, hdd]
    simp

theorem sortino_downside_deviation_witness :
    negReturns (portfolioReturns (pctChange [[1], [2], [4]]) [1]) = [] ∧
    (computeMetrics [1] [[1], [2], [4]] 0).sortino_ratio = 0 := by
  have hr : portfolioReturns (pctChange [[1], [2], [4]]) [1] = [1, 1] := by
    norm_num [portfolioReturns, pctChange, dot]
  have hneg : negReturns (portfolioReturns (pctChange [[1], [2], [4]]) [1]) = [] := by
    rw [hr]
    rw [negReturns, List.filter_eq_nil_iff]
    intro x hx
    rcases List.mem_cons.mp hx with h | h
    · rw [h]; norm_num
    · simp only [List.mem_singleton] at h; rw [h]; norm_num
  exact ⟨hneg, (sortino_downside_deviation [1] [[1], [2], [4]] 0).2.2 hneg⟩

/-- Claim C9: the top-level diversification_ratio of every successful
optimize_portfolio result is computed from the max-Sharpe portfolio's sampled
weights and the un-annualized sample covariance matrix. -/
theorem diversification_ratio_uses_max_sharpe_weights (tickers : List String)
    (iw : Option (List ℝ)) (data draws : List (List ℝ)) (rf : ℝ) :
    (optimizeResult tickers iw data draws rf).diversification_ratio =
      _calculate_diversification_ratio (sampleCov (pctChange data) tickers.length)
        ((optimizeResult tickers iw data draws rf).max_sharpe.weights) := rfl

/-- Claim C10: calculate_portfolio_metrics validates nothing about the
supplied weights: for every non-empty ticker-to-weight mapping (negative or
non-normalized weights included) and non-empty downloaded data it computes the
metrics from the raw weight values as given, while an empty ticker list
short-circuits to the empty-dict result. -/
theorem metrics_no_weight_validation (portfolio : List (String × ℝ))
    (data : List (List ℝ)) (rf : ℝ) (hp : portfolio ≠ []) (hd : data ≠ []) :
    calculate_portfolio_metrics portfolio data rf =
      MetricsOutput.result (computeMetrics (portfolio.map (fun q => q.2)) data rf) ∧
    ∀ (d : List (List ℝ)) (s : ℝ),
      calculate_portfolio_metrics [] d s = MetricsOutput.empty := by
  constructor
  · have h1 : (portfolio.map (fun q => q.1)).isEmpty = false := by
      cases portfolio with
      | nil => exact absurd rfl hp
      | cons a l => rfl
    have h2 : data.isEmpty = false := by
      cases data with
      | nil => exact absurd rfl hd
      | cons a l => rfl
    simp [calculate_portfolio_metrics, h1, h2]
  · intro d s
    rfl

theorem metrics_no_weight_validation_witness :
    calculate_portfolio_metrics [("A", -2), ("B", 5)] [[1, 1], [2, 2]] 0 =
      MetricsOutput.result (computeMetrics [-2, 5] [[1, 1], [2, 2]] 0) :=
  (metrics_no_weight_validation [("A", -2), ("B", 5)] [[1, 1], [2, 2]] 0
    (by simp) (by simp)).1

/-- Claim C3, evaluated at the failing input: with an empty downloaded price
table both core operations return the empty dict, not a typed error; the
output types of the embedding record that the code has no typed-error outcome
at all (every failure path is `return` of the empty dict). -/
theorem failures_return_empty_dict :
    optimize_portfolio ["AAPL"] none [] [] (1 / 25) = OptOutput.empty ∧
    calculate_portfolio_metrics [("AAPL", 1)] [] (1 / 25) = MetricsOutput.empty :=
  ⟨rfl, rfl⟩
